import Mathlib

/-
Verification of the batchit volume-provisioning and local-storage-aggregation
subsystem (package exsmount, plus the ddv teardown package), as a shallow
embedding in Lean.  Device paths and mount points are modelled as lists of
characters (Go strings are byte arrays; every path and device name handled by
this program is ASCII, so a character list is a faithful rendering, and Go
one-byte slicing such as dev[:len(dev)-1] becomes List.dropLast).  Host and
cloud state that the program observes (the mount table, os.Stat answers, the
outcome of each external command or API call) is passed in explicitly as
oracle structures, and each embedded operation additionally returns the list
of external calls it issued, so that claims about which side effects happen
(and in what order) become statements about that event list.
-/

namespace Batchit

/-- A device path or mount point, as a list of characters. -/
abbrev Dev := List Char

/-- Outcome of one run of the mkfs tool on a device, as the Go mkfs wrapper
classifies it: success, a failure whose stderr contains "is mounted"
(returned as MountedError), or any other failure. -/
inductive MkfsOut
  | ok
  | mountedErr
  | fail
deriving DecidableEq, Repr

/-- External calls issued by the local aggregation engine (MountLocal). -/
inductive Ev
  | format (fstype dev : Dev)
  | mkdir (path : Dev)
  | mount (dev mountPoint : Dev)
  | mdadmCreate (raidDev : Dev) (members : List Dev)
deriving DecidableEq, Repr

/-- Host state observed by MountLocal: the device column of /proc/mounts,
whether os.Stat succeeds on a path, whether mdadm is on PATH, and the outcome
of each external command.  It is read as a snapshot, exactly as the Go code
reads /proc/mounts once and stats paths as it goes. -/
structure Host where
  mounts : List Dev
  devExists : Dev → Bool
  mdadmAvailable : Bool
  mdadmOk : Bool
  mkfsOut : Dev → MkfsOut
  dirExists : Dev → Bool
  mkdirOk : Dev → Bool
  mountOk : Dev → Bool

/-- The digit-stripping loop of mountedDevices: starting from i = len-1 and
stopping once i reaches 1, it drops trailing decimal digits but always keeps
at least the first two characters.  Defined on the reversed list: drop the
head while it is a digit and at least two characters remain below it. -/
def stripRevAux : List Char → List Char
  | [] => []
  | c :: rest =>
    if 1 < rest.length ∧ '0' ≤ c ∧ c ≤ '9' then stripRevAux rest else c :: rest

/-- dev with trailing digits removed as mountedDevices normalizes it
(keeping at least two leading characters). -/
def stripMountDev (dev : Dev) : Dev :=
  (stripRevAux dev.reverse).reverse

/-- The in-use device set built from /proc/mounts: every mounted device name
together with its digit-stripped normalization.  The Go code stores both
forms in one map. -/
def mountedDevices (mounts : List Dev) : List Dev :=
  mounts ++ mounts.map stripMountDev

/-- Membership in the in-use set (the map lookup inUse[dev] in MountLocal). -/
def inUseB (mounts : List Dev) (dev : Dev) : Bool :=
  decide (dev ∈ mountedDevices mounts)

/-- Errors surfaced by MountLocal.  panicEmptyDev models the Go runtime panic
of dev[:len(dev)-1] on an empty candidate name; alreadyMounted is the
package-level MountedError value. -/
inductive MLErr
  | panicEmptyDev
  | noUnusedStorage
  | noMdPath
  | mdadmFailed
  | alreadyMounted
  | mkfsFailed (dev : Dev)
  | mkdirFailed (path : Dev)
  | mountFailed (dev : Dev)
deriving DecidableEq, Repr

/-- The candidate-filter loop at the head of MountLocal.  `all` is the full
original candidate list (the Go code checks contains(deviceCandidates, sub)
against it); the second list argument is the remaining suffix being scanned.
A candidate whose one-character truncation is itself a candidate is skipped;
a candidate that does not exist stops the scan (break); an in-use candidate
is skipped; anything else is kept, in order. -/
def filterCandidates (h : Host) (all : List Dev) : List Dev → Except MLErr (List Dev)
  | [] => Except.ok []
  | dev :: rest =>
    if dev.length = 0 then Except.error MLErr.panicEmptyDev
    else if decide (dev.dropLast ∈ all) then filterCandidates h all rest
    else if ¬ h.devExists dev then Except.ok []
    else if inUseB h.mounts dev then filterCandidates h all rest
    else
      match filterCandidates h all rest with
      | Except.error e => Except.error e
      | Except.ok tail => Except.ok (dev :: tail)

/-- The literal filesystem type MountLocal passes to mkfs (it is hard-coded
in the source; the FSType command-line argument never reaches MountLocal). -/
def ext4 : Dev := ['e', 'x', 't', '4']

/-- The mkfs wrapper: runs the format tool and classifies its failure. -/
def mkfs (h : Host) (fstype dev : Dev) : Except MLErr Unit × List Ev :=
  match h.mkfsOut dev with
  | MkfsOut.ok => (Except.ok (), [Ev.format fstype dev])
  | MkfsOut.mountedErr => (Except.error MLErr.alreadyMounted, [Ev.format fstype dev])
  | MkfsOut.fail => (Except.error (MLErr.mkfsFailed dev), [Ev.format fstype dev])

/-- makeDir: stat the path, create it (idempotently) when absent. -/
def makeDir (h : Host) (path : Dev) : Except MLErr Unit × List Ev :=
  if h.dirExists path then (Except.ok (), [])
  else if h.mkdirOk path then (Except.ok (), [Ev.mkdir path])
  else (Except.error (MLErr.mkdirFailed path), [Ev.mkdir path])

/-- makeAndMount: create the mount point then run the mount tool. -/
def makeAndMount (h : Host) (dev mountPoint : Dev) : Except MLErr Unit × List Ev :=
  match makeDir h mountPoint with
  | (Except.error e, evs) => (Except.error e, evs)
  | (Except.ok _, evs) =>
    if h.mountOk dev then (Except.ok (), evs ++ [Ev.mount dev mountPoint])
    else (Except.error (MLErr.mountFailed dev), evs ++ [Ev.mount dev mountPoint])

/-- The mount point used for the device at position i on the per-device path:
the base for i = 0, base_i for later devices. -/
def indexedBase (mountBase : Dev) (i : Nat) : Dev :=
  if i > 0 then mountBase ++ '_' :: (toString i).toList else mountBase

/-- The per-device loop of MountLocal (taken when mdadm is missing or only
one device survived filtering): format each device with the hard-coded ext4,
absorb an already-mounted format failure by skipping that device, and mount
the i-th device at the indexed mount point. -/
def mountEach (h : Host) (mountBase : Dev) : List Dev → Nat → Except MLErr Unit × List Ev
  | [], _ => (Except.ok (), [])
  | dev :: rest, i =>
    match mkfs h ext4 dev with
    | (Except.error MLErr.alreadyMounted, evs) =>
      match mountEach h mountBase rest (i + 1) with
      | (r, evs2) => (r, evs ++ evs2)
    | (Except.error e, evs) => (Except.error e, evs)
    | (Except.ok _, evs) =>
      match makeAndMount h dev (indexedBase mountBase i) with
      | (Except.error e, evs2) => (Except.error e, evs ++ evs2)
      | (Except.ok _, evs2) =>
        match mountEach h mountBase rest (i + 1) with
        | (r, evs3) => (r, evs ++ evs2 ++ evs3)

/-- The path /dev/mdN. -/
def mdPath (n : Nat) : Dev :=
  ['/', 'd', 'e', 'v', '/', 'm', 'd'] ++ (toString n).toList

/-- The /dev/mdN scan: starting at index i with the given fuel, return the
first path whose os.Stat reports non-existence. -/
def firstFreeMdAux (ex : Dev → Bool) (i : Nat) : Nat → Option Dev
  | 0 => none
  | fuel + 1 => if ex (mdPath i) then firstFreeMdAux ex (i + 1) fuel else some (mdPath i)

/-- The first free /dev/mdN path with N scanned over 0..19. -/
def firstFreeMd (ex : Dev → Bool) : Option Dev :=
  firstFreeMdAux ex 0 20

/-- The result of MountLocal: the Go pair ([]string, error) plus the list of
external calls that were issued on the way. -/
structure MLResult where
  devices : List Dev
  err : Option MLErr
  events : List Ev
deriving DecidableEq, Repr

/-- MountLocal: filter the candidates; fail when nothing usable remains; on
the per-device path format and mount each device separately; otherwise
assemble one RAID0 array at the first free /dev/mdN from all usable devices,
format it once and mount it once at the base mount point. -/
def MountLocal (h : Host) (cands : List Dev) (mountBase : Dev) : MLResult :=
  match filterCandidates h cands cands with
  | Except.error e => ⟨[], some e, []⟩
  | Except.ok [] => ⟨[], some MLErr.noUnusedStorage, []⟩
  | Except.ok devices =>
    if ¬ h.mdadmAvailable ∨ devices.length = 1 then
      match mountEach h mountBase devices 0 with
      | (Except.ok _, evs) => ⟨devices, none, evs⟩
      | (Except.error e, evs) => ⟨[], some e, evs⟩
    else
      match firstFreeMd h.devExists with
      | none => ⟨[], some MLErr.noMdPath, []⟩
      | some raidDev =>
        if ¬ h.mdadmOk then ⟨[], some MLErr.mdadmFailed, [Ev.mdadmCreate raidDev devices]⟩
        else
          match mkfs h ext4 raidDev with
          | (Except.error e, evs) =>
            ⟨[raidDev], some e, Ev.mdadmCreate raidDev devices :: evs⟩
          | (Except.ok _, evs) =>
            match makeAndMount h raidDev mountBase with
            | (Except.error e, evs2) =>
              ⟨[raidDev], some e, Ev.mdadmCreate raidDev devices :: (evs ++ evs2)⟩
            | (Except.ok _, evs2) =>
              ⟨[raidDev], none, Ev.mdadmCreate raidDev devices :: (evs ++ evs2)⟩

/-- Signed 64-bit wrap-around, applied where the Go source multiplies int64
values (45 * size, 50 * size). -/
def i64 (x : Int) : Int := (x + 2 ^ 63) % 2 ^ 64 - 2 ^ 63

/-- The command-line arguments of ebsmount (struct Args).  FSType is parsed
and documented but, as in the source, never consulted by the mounting code. -/
structure Args where
  Size : Int
  MountPoint : Dev
  VolumeType : String
  FSType : String
  Iops : Int
  N : Int
  Keep : Bool
deriving DecidableEq, Repr

/-- The io1 iops validation and adjustment block at the top of CreateAttach:
a zero iops defaults to 45*size; a value outside [100, 20000] is rejected; a
value above 50*size is reset to 45*size, and then capped at 20000 only when
it exceeds 200000 (the literal in the source).  For any other volume type the
iops value passes through untouched. -/
def clampIops (volumeType : String) (size iops0 : Int) : Except Unit Int :=
  if volumeType = "io1" then
    let iops1 := if iops0 = 0 then i64 (45 * size) else iops0
    if iops1 < 100 ∨ iops1 > 20000 then Except.error ()
    else if iops1 > i64 (50 * size) then
      let iops2 := i64 (45 * size)
      Except.ok (if iops2 > 200000 then 20000 else iops2)
    else Except.ok iops1
  else Except.ok iops0

/-- The per-volume size for a request of N volumes.  The source computes
cli.Size = int64(float64(cli.Size)/float64(cli.N) + 0.5) in IEEE float64;
this definition is the exact rational round-half-up it implements on the
argument ranges the program accepts (see the C10 discussion: the float
computation itself is outside the embedding). -/
def sizePerVolume (size n : Int) : Int := Int.tdiv (2 * size + n) (2 * n)

/-- One answer of the DescribeVolumes call inside WaitForVolumeStatus: an API
error, or the volume state string it reports.  (The source panics when the
describe answer lists no volumes; that environment pathology is not
modelled.) -/
inductive DescribeOut
  | apiErr (msg : String)
  | state (s : String)
deriving DecidableEq, Repr

/-- How WaitForVolumeStatus fails: a describe error surfaced immediately, or
the 30-attempt budget exhausted, carrying the last observed state. -/
inductive WaitErr
  | apiErr (msg : String)
  | timeout (lastState : String)
deriving DecidableEq, Repr

/-- The polling loop of WaitForVolumeStatus: at most `fuel` describe calls,
tracking the last observed state for the timeout message; returns the number
of describe calls issued. -/
def waitAux (describe : Nat → DescribeOut) (target : String) :
    String → Nat → Nat → Except WaitErr Unit × Nat
  | last, _, 0 => (Except.error (WaitErr.timeout last), 0)
  | _, i, fuel + 1 =>
    match describe i with
    | DescribeOut.apiErr m => (Except.error (WaitErr.apiErr m), 1)
    | DescribeOut.state s =>
      if s = target then (Except.ok (), 1)
      else
        match waitAux describe target s (i + 1) fuel with
        | (r, n) => (r, n + 1)

/-- WaitForVolumeStatus: poll the describe call up to 30 times until the
volume reports the target state. -/
def waitForVolumeStatusGo (describe : Nat → DescribeOut) (target : String) :
    Except WaitErr Unit × Nat :=
  waitAux describe target "" 0 30

/-- The device-suffix search space (the letters constant of the source). -/
def lettersList : List Char :=
  ['a', 'b', 'c', 'd', 'e', 'f', 'g', 'h', 'i', 'j', 'k', 'l', 'm',
   'n', 'o', 'p', 'q', 'r', 's', 't', 'u', 'v', 'w', 'x', 'y', 'z']

/-- findNextDevNode: the first path pre+c absent from the local filesystem,
for c drawn in order from the suffix characters; none models the Go panic
when the search space is exhausted. -/
def findNextDevNode (ex : Dev → Bool) (pre : Dev) (suffixChars : List Char) : Option Dev :=
  suffixChars.findSome? fun c => if ex (pre ++ [c]) then none else some (pre ++ [c])

/-- waitForDevice: poll os.Stat on the device once per second, up to 30
attempts; present i tells whether the device node exists at poll i. -/
def waitForDevice (present : Nat → Bool) : Bool :=
  (List.range 30).any present

/-- Outcome of one CreateVolume API call: the new volume id, a failure whose
message contains RequestLimitExceeded, or any other failure. -/
inductive CreateOut
  | ok (vid : String)
  | rateLimited (msg : String)
  | errOther (msg : String)
deriving DecidableEq, Repr

/-- Outcome of one AttachVolume API call: success, a failure whose message
contains "is already in use" (the device-naming race), or any other
failure. -/
inductive AttachOut
  | ok
  | errInUse (msg : String)
  | errOther (msg : String)
deriving DecidableEq, Repr

/-- The cloud and host state CreateAttach interacts with.  createRes is keyed
by volume index and whether the call is the single rate-limit retry;
statusSeq gives the DescribeVolumes answers for one wait (keyed by volume id,
target state and poll index); devNodeExists is os.Stat for the device-node
scan; devAppears drives waitForDevice. -/
structure Ec2Env where
  iidOk : Bool
  sessionOk : Bool
  createRes : Nat → Bool → CreateOut
  statusSeq : String → String → Nat → DescribeOut
  devNodeExists : Dev → Bool
  attachRes : Dev → AttachOut
  devAppears : Dev → Nat → Bool
  modifyOk : String → Bool
  dirExists : Dev → Bool
  mkdirOk : Dev → Bool

/-- Calls issued by CreateAttach to the block-storage control plane (the EC2
API).  The instance-metadata fetch is not a control-plane call and is not an
event. -/
inductive Ec2Ev
  | createVolume (i : Nat) (size : Int) (volumeType : String) (iops : Int)
  | describeVolumes (vid : String)
  | attachVolume (vid : String) (device : Dev)
  | modifyDeleteOnTerm (vid : String) (device : Dev)
deriving DecidableEq, Repr

/-- Errors CreateAttach can return.  panicNoDevNode models the findNextDevNode
panic on an exhausted suffix space. -/
inductive CAErr
  | metadataErr
  | sessionErr
  | iopsRange
  | createErr (msg : String)
  | createWaitErr (w : WaitErr)
  | attachErr (msg : String)
  | attachWaitErr (w : WaitErr)
  | unableToAttach
  | modifyErr
  | mkdirErr
  | panicNoDevNode
deriving DecidableEq, Repr

/-- n DescribeVolumes events for one polling wait on a volume. -/
def statusEvsE (vid : String) (n : Nat) : List Ec2Ev :=
  List.replicate n (Ec2Ev.describeVolumes vid)

/-- The Create function: one CreateVolume call, then WaitForVolumeStatus
until the volume is available.  The Bool result records whether the error it
returns is a rate-limit error (the strings.Contains RequestLimitExceeded
check of the caller); describe errors inside the wait never carry the
rate-limit marker in this model. -/
def CreateGo (env : Ec2Env) (i : Nat) (retry : Bool) (size iops : Int) (typ : String) :
    Except CAErr String × Bool × List Ec2Ev :=
  match env.createRes i retry with
  | CreateOut.rateLimited m =>
    (Except.error (CAErr.createErr m), true, [Ec2Ev.createVolume i size typ iops])
  | CreateOut.errOther m =>
    (Except.error (CAErr.createErr m), false, [Ec2Ev.createVolume i size typ iops])
  | CreateOut.ok vid =>
    match waitForVolumeStatusGo (env.statusSeq vid "available") "available" with
    | (Except.error w, n) =>
      (Except.error (CAErr.createWaitErr w), false,
        Ec2Ev.createVolume i size typ iops :: statusEvsE vid n)
    | (Except.ok _, n) =>
      (Except.ok vid, false, Ec2Ev.createVolume i size typ iops :: statusEvsE vid n)

/-- What one pass of the creation step leaves behind: the volume id to attach
together with the value of the enclosing err variable at that point (after a
rate-limited first call whose retry succeeded, err still holds the original
rate-limit error - the source never resets it), or a hard failure. -/
inductive VolStep
  | proceed (vid : String) (errVar : Option CAErr) (evs : List Ec2Ev)
  | failv (e : CAErr) (evs : List Ec2Ev)
deriving Repr

/-- The create-with-one-retry block of CreateAttach: on a rate-limit error
sleep and call Create once more; if the retry also fails, surface the
original error. -/
def createStep (env : Ec2Env) (i : Nat) (size iops : Int) (typ : String) : VolStep :=
  match CreateGo env i false size iops typ with
  | (Except.ok vid, _, evs) => VolStep.proceed vid none evs
  | (Except.error e, true, evs) =>
    match CreateGo env i true size iops typ with
    | (Except.ok vid, _, evs2) => VolStep.proceed vid (some e) (evs ++ evs2)
    | (Except.error _, _, evs2) => VolStep.failv e (evs ++ evs2)
  | (Except.error e, false, evs) => VolStep.failv e evs

/-- The device-path prefixes tried by the attach loop. -/
def sdPre : Dev := ['/', 'd', 'e', 'v', '/', 's', 'd']

/-- The fallback device-path prefix. -/
def xvdPre : Dev := ['/', 'd', 'e', 'v', '/', 'x', 'v', 'd']

/-- The (prefix, k) schedule of the nested attach loops: for each prefix in
order, k runs from 1 to 6, and the suffix search space is letters[k:]. -/
def attachPairs : List (Dev × Nat) :=
  ([1, 2, 3, 4, 5, 6].map fun k => (sdPre, k)) ++
    ([1, 2, 3, 4, 5, 6].map fun k => (xvdPre, k))

/-- How the attach loops end: a device attached and present, an early return
from the enclosing function (carrying the value returned as the error, which
is the stale err variable - possibly none - on the waitForDevice path), or
both prefixes exhausted.  vids collects the ids appended to the printed
volumes list. -/
inductive AttachOutcome
  | attachedOk (device : Dev) (vids : List String) (evs : List Ec2Ev)
  | earlyRet (err : Option CAErr) (vids : List String) (evs : List Ec2Ev)
  | exhausted (vids : List String) (evs : List Ec2Ev)
deriving DecidableEq, Repr

/-- Prefix the event trace of an attach outcome. -/
def attachOutcomePrepend (evs0 : List Ec2Ev) : AttachOutcome → AttachOutcome
  | AttachOutcome.attachedOk d vs evs => AttachOutcome.attachedOk d vs (evs0 ++ evs)
  | AttachOutcome.earlyRet e vs evs => AttachOutcome.earlyRet e vs (evs0 ++ evs)
  | AttachOutcome.exhausted vs evs => AttachOutcome.exhausted vs (evs0 ++ evs)

/-- The nested attach loops of CreateAttach, flattened over the (prefix, k)
schedule: pick a device node, attach; on an already-in-use race sleep and
retry with the next k; on any other attach error return it wrapped; after a
successful attach, wait for the in-use state (an error returns it), then wait
for the device node to appear - if it never does, return the CURRENT value of
the outer err variable (nil on the normal path: the source returns no error
there). -/
def attachLoop (env : Ec2Env) (vid : String) (errVar : Option CAErr) :
    List (Dev × Nat) → AttachOutcome
  | [] => AttachOutcome.exhausted [] []
  | (pre, k) :: rest =>
    match findNextDevNode env.devNodeExists pre (lettersList.drop k) with
    | none => AttachOutcome.earlyRet (some CAErr.panicNoDevNode) [] []
    | some dev =>
      match env.attachRes dev with
      | AttachOut.errInUse _ =>
        attachOutcomePrepend [Ec2Ev.attachVolume vid dev] (attachLoop env vid errVar rest)
      | AttachOut.errOther m =>
        AttachOutcome.earlyRet (some (CAErr.attachErr m)) [] [Ec2Ev.attachVolume vid dev]
      | AttachOut.ok =>
        match waitForVolumeStatusGo (env.statusSeq vid "in-use") "in-use" with
        | (Except.error w, n) =>
          AttachOutcome.earlyRet (some (CAErr.attachWaitErr w)) [vid]
            (Ec2Ev.attachVolume vid dev :: statusEvsE vid n)
        | (Except.ok _, n) =>
          if waitForDevice (env.devAppears dev) then
            AttachOutcome.attachedOk dev [vid] (Ec2Ev.attachVolume vid dev :: statusEvsE vid n)
          else
            AttachOutcome.earlyRet errVar [vid] (Ec2Ev.attachVolume vid dev :: statusEvsE vid n)

/-- The Go return value of CreateAttach - the attached device list and the
error, both of which can be empty/nil at once - plus the printed volume ids
and the control-plane call trace. -/
structure CAResult where
  devices : List Dev
  err : Option CAErr
  volumes : List String
  events : List Ec2Ev
deriving DecidableEq, Repr

/-- The tail of CreateAttach after the volume loop: print the volume ids and
create the mount-point directory. -/
def caFinish (env : Ec2Env) (cli : Args) (vols : List String) (devs : List Dev)
    (evs : List Ec2Ev) : CAResult :=
  if env.dirExists cli.MountPoint then ⟨devs, none, vols, evs⟩
  else if env.mkdirOk cli.MountPoint then ⟨devs, none, vols, evs⟩
  else ⟨[], some CAErr.mkdirErr, vols, evs⟩

/-- The per-volume loop of CreateAttach over the remaining volume indices:
create (with one rate-limit retry), attach, and unless Keep is set mark the
volume delete-on-termination. -/
def caLoop (env : Ec2Env) (cli : Args) (size iops : Int) (vols : List String)
    (devs : List Dev) (evs : List Ec2Ev) : List Nat → CAResult
  | [] => caFinish env cli vols devs evs
  | i :: rest =>
    match createStep env i size iops cli.VolumeType with
    | VolStep.failv e evs1 => ⟨[], some e, vols, evs ++ evs1⟩
    | VolStep.proceed vid errVar evs1 =>
      match attachLoop env vid errVar attachPairs with
      | AttachOutcome.earlyRet e vs evs2 => ⟨[], e, vols ++ vs, evs ++ evs1 ++ evs2⟩
      | AttachOutcome.exhausted vs evs2 =>
        ⟨[], some CAErr.unableToAttach, vols ++ vs, evs ++ evs1 ++ evs2⟩
      | AttachOutcome.attachedOk dev vs evs2 =>
        if cli.Keep then
          caLoop env cli size iops (vols ++ vs) (devs ++ [dev]) (evs ++ evs1 ++ evs2) rest
        else if env.modifyOk vid then
          caLoop env cli size iops (vols ++ vs) (devs ++ [dev])
            (evs ++ evs1 ++ evs2 ++ [Ec2Ev.modifyDeleteOnTerm vid dev]) rest
        else
          ⟨[], some CAErr.modifyErr, vols ++ vs,
            evs ++ evs1 ++ evs2 ++ [Ec2Ev.modifyDeleteOnTerm vid dev]⟩

/-- CreateAttach: fetch the instance identity, open a session, validate and
adjust the iops argument for io1 (before any control-plane call), divide the
requested size across the N volumes, then run the per-volume loop. -/
def CreateAttach (env : Ec2Env) (cli : Args) : CAResult :=
  if ¬ env.iidOk then ⟨[], some CAErr.metadataErr, [], []⟩
  else if ¬ env.sessionOk then ⟨[], some CAErr.sessionErr, [], []⟩
  else
    match clampIops cli.VolumeType cli.Size cli.Iops with
    | Except.error _ => ⟨[], some CAErr.iopsRange, [], []⟩
    | Except.ok iops =>
      caLoop env cli (sizePerVolume cli.Size cli.N) iops [] [] []
        (List.range cli.N.toNat)

/-- The fixed ordered region list probed by ddv.DetachAndDelete. -/
def ddvRegions : List String :=
  ["us-east-1", "us-east-2", "us-west-1", "us-west-2", "ap-south-1",
   "ap-northeast-2", "ap-northeast-1", "ca-central-1", "cn-north-1",
   "eu-west-1", "eu-west-2", "sa-east-1", "us-gov-west-1",
   "ap-southeast-1", "ap-southeast-2"]

/-- Outcome of one DetachVolume call: success; a failure whose message
contains "is in the 'available' state" (treated as already detached); or any
other failure, together with the state of the attachment value the call
returned, when any (the source checks v.State == "available" as a further
already-detached signal). -/
inductive DetachRes
  | ok
  | errAvailableState (msg : String)
  | errOther (msg : String) (vState : Option String)
deriving DecidableEq, Repr

/-- The cloud state ddv.DetachAndDelete interacts with, keyed by volume id:
whether the region-probe describe succeeds in a region, the outcome of the
forced detach, the describe answers of the wait-for-available poll, and
whether the delete succeeds. -/
structure DdvEnv where
  describeOk : String → String → Bool
  detachCall : String → DetachRes
  statusSeq : String → Nat → DescribeOut
  deleteOk : String → Bool

/-- Control-plane calls issued by ddv.DetachAndDelete. -/
inductive DdvEv
  | describe (region vid : String)
  | detach (vid : String)
  | describeStatus (vid : String)
  | delete (vid : String)
deriving DecidableEq, Repr

/-- Errors ddv.DetachAndDelete can return. -/
inductive DdvErr
  | notFound (vid : String)
  | detachErr (msg : String)
  | waitErr (w : WaitErr)
  | deleteErr (vid : String)
deriving DecidableEq, Repr

/-- The region probe: issue a describe call for the volume id in each region
in order until one succeeds. -/
def probeRegions (env : DdvEnv) (vid : String) : List String → Option String × List DdvEv
  | [] => (none, [])
  | r :: rest =>
    if env.describeOk r vid then (some r, [DdvEv.describe r vid])
    else
      match probeRegions env vid rest with
      | (res, evs) => (res, DdvEv.describe r vid :: evs)

/-- n describe events of the wait-for-available poll on a volume. -/
def ddvStatusEvs (vid : String) (n : Nat) : List DdvEv :=
  List.replicate n (DdvEv.describeStatus vid)

/-- The final DeleteVolume call of DetachAndDelete. -/
def deleteStep (env : DdvEnv) (vid : String) (evs : List DdvEv) :
    Option DdvErr × List DdvEv :=
  if env.deleteOk vid then (none, evs ++ [DdvEv.delete vid])
  else (some (DdvErr.deleteErr vid), evs ++ [DdvEv.delete vid])

/-- ddv.DetachAndDelete: probe the fixed region list for the volume (if no
region's describe succeeds, fail with the not-found error before any detach
or delete call); force-detach, treating an already-available signal - in the
error message or in the returned attachment state - as success; on a clean
detach wait for the available state; then delete the volume.  The source's
detach retry loop is written for 10 attempts but every branch of its body
breaks or returns, so it executes exactly one iteration, embedded here as
straight-line code. -/
def DetachAndDelete (env : DdvEnv) (vid : String) : Option DdvErr × List DdvEv :=
  match probeRegions env vid ddvRegions with
  | (none, evs) => (some (DdvErr.notFound vid), evs)
  | (some _, evs) =>
    match env.detachCall vid with
    | DetachRes.ok =>
      match waitForVolumeStatusGo (env.statusSeq vid) "available" with
      | (Except.error w, n) =>
        (some (DdvErr.waitErr w), evs ++ DdvEv.detach vid :: ddvStatusEvs vid n)
      | (Except.ok _, n) =>
        deleteStep env vid (evs ++ DdvEv.detach vid :: ddvStatusEvs vid n)
    | DetachRes.errAvailableState _ => deleteStep env vid (evs ++ [DdvEv.detach vid])
    | DetachRes.errOther m vState =>
      if vState = some "available" then deleteStep env vid (evs ++ [DdvEv.detach vid])
      else (some (DdvErr.detachErr m), evs ++ [DdvEv.detach vid])

/-- ddv.Main: one task per volume id, each running DetachAndDelete on its own
id with no shared mutable state, joined at the end; the per-id outcomes are
collected in order.  Logging aside, the observable behavior of the goroutine
fan-out is this independent per-id map. -/
def ddvMain (env : DdvEnv) (vids : List String) : List (String × Option DdvErr) :=
  vids.map fun v => (v, (DetachAndDelete env v).fst)

/-- Whether an aggregation event is a format-tool invocation. -/
def isFormatEv : Ev → Bool
  | Ev.format _ _ => true
  | _ => false

/-- Whether an aggregation event is a mount-tool invocation. -/
def isMountEv : Ev → Bool
  | Ev.mount _ _ => true
  | _ => false

/-- Whether an aggregation event is an array-assembly invocation. -/
def isMdadmEv : Ev → Bool
  | Ev.mdadmCreate _ _ => true
  | _ => false

/-- Whether a teardown event is a DetachVolume call. -/
def isDetachEv : DdvEv → Bool
  | DdvEv.detach _ => true
  | _ => false

/-- Whether a teardown event is a DeleteVolume call. -/
def isDeleteEv : DdvEv → Bool
  | DdvEv.delete _ => true
  | _ => false

/-- An environment whose control-plane calls all succeed at the first
attempt and whose device nodes appear immediately. -/
def envC1 : Ec2Env :=
  ⟨true, true,
   fun _ _ => CreateOut.ok "vol-1",
   fun _ target _ => DescribeOut.state target,
   fun _ => false,
   fun _ => AttachOut.ok,
   fun _ _ => true,
   fun _ => true, fun _ => true, fun _ => true⟩

/-- An io1 request of size 2 GiB with iops 101 (in range, but above
50*size), one volume, keep set. -/
def cliC1 : Args := ⟨2, ['/', 'm'], "io1", "ext4", 101, 1, true⟩

/-- A host on which every path exists, nothing is mounted and every tool
call succeeds. -/
def hC2 : Host :=
  ⟨[], fun _ => true, true, true, fun _ => MkfsOut.ok,
   fun _ => true, fun _ => true, fun _ => true⟩

/-- A candidate list holding the base device xa and its two-digit partition
alias xa12. -/
def candsC2 : List Dev := [['x', 'a'], ['x', 'a', '1', '2']]

/-- A host whose single candidate device xa is listed in /proc/mounts. -/
def hC3 : Host :=
  ⟨[['x', 'a']], fun _ => true, true, true, fun _ => MkfsOut.ok,
   fun _ => true, fun _ => true, fun _ => true⟩

/-- A host with exactly the three candidate devices xa, xb, xc present (so
/dev/md0 is free), mdadm available, and all tool calls succeeding. -/
def hC4 : Host :=
  ⟨[], fun d => decide (d ∈ [['x', 'a'], ['x', 'b'], ['x', 'c']]), true, true,
   fun _ => MkfsOut.ok, fun _ => true, fun _ => true, fun _ => true⟩

/-- A host with the single candidate device xa present and all tool calls
succeeding. -/
def hC5 : Host :=
  ⟨[], fun d => decide (d = ['x', 'a']), true, true, fun _ => MkfsOut.ok,
   fun _ => true, fun _ => true, fun _ => true⟩

/-- A host with two usable devices and mdadm available, on which formatting
the assembled array fails with the already-mounted error (the state a
re-run of a completed aggregation finds). -/
def hC6 : Host :=
  ⟨[], fun d => decide (d ∈ [['x', 'a'], ['x', 'b']]), true, true,
   fun d => if d = mdPath 0 then MkfsOut.mountedErr else MkfsOut.ok,
   fun _ => true, fun _ => true, fun _ => true⟩

/-- A host without the striping tool, where formatting xa reports
already-mounted and every other call succeeds. -/
def hC6w : Host :=
  ⟨[], fun d => decide (d ∈ [['x', 'a'], ['x', 'b']]), false, true,
   fun d => if d = ['x', 'a'] then MkfsOut.mountedErr else MkfsOut.ok,
   fun _ => true, fun _ => true, fun _ => true⟩

/-- A teardown environment in which the describe call fails in every
region. -/
def envC7 : DdvEnv :=
  ⟨fun _ _ => false, fun _ => DetachRes.ok,
   fun _ _ => DescribeOut.state "available", fun _ => true⟩

/-- An environment where create, attach and the status waits succeed but the
attached device node never appears on the host. -/
def envC8 : Ec2Env :=
  ⟨true, true,
   fun _ _ => CreateOut.ok "vol-1",
   fun _ target _ => DescribeOut.state target,
   fun _ => false,
   fun _ => AttachOut.ok,
   fun _ _ => false,
   fun _ => true, fun _ => true, fun _ => true⟩

/-- A default gp2 request for one 200 GiB volume. -/
def cliC8 : Args := ⟨200, ['/', 'm'], "gp2", "ext4", 0, 1, false⟩

/-- A teardown environment in which vol-a is found in the first region and
every call on it succeeds, while vol-b is found nowhere. -/
def envC9a : DdvEnv :=
  ⟨fun _ v => v = "vol-a", fun _ => DetachRes.ok,
   fun _ _ => DescribeOut.state "available", fun _ => true⟩

/-- envC9a with all answers about vol-a flipped to failures; its answers
about vol-b are unchanged. -/
def envC9b : DdvEnv :=
  ⟨fun _ _ => false, fun v => if v = "vol-a" then DetachRes.errOther "err" none else DetachRes.ok,
   fun v _ => if v = "vol-a" then DescribeOut.apiErr "err" else DescribeOut.state "available",
   fun v => v ≠ "vol-a"⟩

/-! ### Supporting lemmas -/

/-- Signed 64-bit wrap-around is the identity on in-range values. -/
theorem i64_eq_of_bounds (x : Int) (h1 : -(2 ^ 63) ≤ x) (h2 : x < 2 ^ 63) :
    i64 x = x := by
  unfold i64
  omega

/-- Every device the candidate filter keeps has a one-character truncation
that is not itself a candidate (the contains check of MountLocal). -/
theorem filterCandidates_sel_dropLast (h : Host) (all : List Dev) :
    ∀ rest sel, filterCandidates h all rest = Except.ok sel →
      ∀ d ∈ sel, d.dropLast ∉ all := by
  intro rest
  induction rest with
  | nil =>
    intro sel hf
    simp only [filterCandidates, Except.ok.injEq] at hf
    intro d hd
    rw [← hf] at hd
    simp at hd
  | cons dev rest ih =>
    intro sel hf
    simp only [filterCandidates] at hf
    by_cases h1 : dev.length = 0
    · rw [if_pos h1] at hf
      exact Except.noConfusion hf
    rw [if_neg h1] at hf
    by_cases h2 : dev.dropLast ∈ all
    · rw [if_pos (decide_eq_true h2)] at hf
      exact ih sel hf
    rw [if_neg (by simp [h2])] at hf
    by_cases h3 : h.devExists dev = true
    · rw [if_neg (by simp [h3])] at hf
      by_cases h4 : inUseB h.mounts dev = true
      · rw [if_pos h4] at hf
        exact ih sel hf
      · rw [if_neg h4] at hf
        cases hrec : filterCandidates h all rest with
        | error e =>
          rw [hrec] at hf
          exact Except.noConfusion hf
        | ok tail =>
          rw [hrec] at hf
          simp only [Except.ok.injEq] at hf
          intro d hd
          rw [← hf] at hd
          rcases List.mem_cons.mp hd with heq | hd2
          · subst heq; exact h2
          · exact ih tail hrec d hd2
    · rw [if_pos h3] at hf
      simp only [Except.ok.injEq] at hf
      intro d hd
      rw [← hf] at hd
      simp at hd

/-- When every remaining candidate is nonempty and exists, the filter
succeeds and keeps each candidate that is neither a one-character alias of
another candidate nor in use. -/
theorem filterCandidates_ok_of_usable (h : Host) (all : List Dev) :
    ∀ rest, (∀ d ∈ rest, d ≠ [] ∧ h.devExists d = true) →
      ∃ sel, filterCandidates h all rest = Except.ok sel ∧
        ∀ d ∈ rest, d.dropLast ∉ all → inUseB h.mounts d = false → d ∈ sel := by
  intro rest
  induction rest with
  | nil => exact fun _ => ⟨[], rfl, by simp⟩
  | cons dev rest ih =>
    intro hyp
    obtain ⟨hne, hex⟩ := hyp dev (List.mem_cons_self dev rest)
    obtain ⟨sel, hsel, hmem⟩ := ih fun d hd => hyp d (List.mem_cons_of_mem dev hd)
    by_cases hdl : dev.dropLast ∈ all
    · refine ⟨sel, ?_, ?_⟩
      · simp only [filterCandidates]
        rw [if_neg (by simp [List.length_eq_zero, hne]), if_pos (decide_eq_true hdl)]
        exact hsel
      · intro d hd hdrop huse
        rcases List.mem_cons.mp hd with heq | hd2
        · subst heq; exact absurd hdl hdrop
        · exact hmem d hd2 hdrop huse
    · by_cases huse : inUseB h.mounts dev = true
      · refine ⟨sel, ?_, ?_⟩
        · simp only [filterCandidates]
          rw [if_neg (by simp [List.length_eq_zero, hne]), if_neg (by simp [hdl]),
            if_neg (by simp [hex]), if_pos huse]
          exact hsel
        · intro d hd hdrop huse2
          rcases List.mem_cons.mp hd with heq | hd2
          · subst heq; rw [huse] at huse2; cases huse2
          · exact hmem d hd2 hdrop huse2
      · refine ⟨dev :: sel, ?_, ?_⟩
        · simp only [filterCandidates]
          rw [if_neg (by simp [List.length_eq_zero, hne]), if_neg (by simp [hdl]),
            if_neg (by simp [hex]), if_neg huse, hsel]
        · intro d hd hdrop huse2
          rcases List.mem_cons.mp hd with heq | hd2
          · subst heq; exact List.mem_cons_self _ _
          · exact List.mem_cons_of_mem _ (hmem d hd2 hdrop huse2)

/-- When every existing candidate is in use, the filter keeps nothing. -/
theorem filterCandidates_all_in_use (h : Host) (all : List Dev) :
    ∀ rest, (∀ d ∈ rest, d ≠ []) →
      (∀ d ∈ rest, h.devExists d = true → inUseB h.mounts d = true) →
      filterCandidates h all rest = Except.ok [] := by
  intro rest
  induction rest with
  | nil => intro _ _; rfl
  | cons dev rest ih =>
    intro hne hu
    have hne1 : dev ≠ [] := hne dev (List.mem_cons_self _ _)
    have ihr := ih (fun d hd => hne d (List.mem_cons_of_mem _ hd))
      (fun d hd => hu d (List.mem_cons_of_mem _ hd))
    simp only [filterCandidates]
    rw [if_neg (by simp [List.length_eq_zero, hne1])]
    by_cases hdl : dev.dropLast ∈ all
    · rw [if_pos (decide_eq_true hdl)]; exact ihr
    · rw [if_neg (by simp [hdl])]
      by_cases hex : h.devExists dev = true
      · rw [if_neg (by simp [hex]), if_pos (hu dev (List.mem_cons_self _ _) hex)]
        exact ihr
      · rw [if_pos hex]

/-! ### Claim theorems -/

/-- C2 (counterexample): a candidate list holding a base device and its
TWO-digit partition alias (xa and xa12) has the alias kept by the filter -
the source truncates exactly one character, so xa12 is compared as xa1,
which is not a candidate.  The claim says a numbered-partition alias (the
base followed by trailing digits) is never selected; here the selected set
is exactly [xa, xa12]. -/
theorem C2_counterexample :
    filterCandidates hC2 candsC2 candsC2 =
      Except.ok [['x', 'a'], ['x', 'a', '1', '2']] ∧
    ['x', 'a', '1', '2'] = ['x', 'a'] ++ ['1', '2'] ∧
    (∀ ch ∈ (['1', '2'] : List Char), '0' ≤ ch ∧ ch ≤ '9') :=
  ⟨rfl, rfl, by decide⟩

/-- C2 (amended): aggregation drops exactly the candidates whose
one-character truncation is itself a candidate, so an alias of the form
base ++ [c] (in particular a single-digit partition alias) is never
selected; and the base device is selected provided every candidate is
nonempty and exists, the base is not in the in-use set, and the base's own
one-character truncation is not a candidate.  Aliases with two or more
trailing digits are not recognized (see the counterexample). -/
theorem C2_amended (h : Host) (cands : List Dev) (base : Dev) (c : Char)
    (hbase : base ∈ cands) (_halias : base ++ [c] ∈ cands)
    (hall : ∀ d ∈ cands, d ≠ [] ∧ h.devExists d = true)
    (huse : inUseB h.mounts base = false)
    (hdrop : base.dropLast ∉ cands) :
    ∃ sel, filterCandidates h cands cands = Except.ok sel ∧
      base ∈ sel ∧ base ++ [c] ∉ sel := by
  obtain ⟨sel, hsel, hmem⟩ := filterCandidates_ok_of_usable h cands cands hall
  refine ⟨sel, hsel, hmem base hbase hdrop huse, ?_⟩
  intro hmem2
  have hnot := filterCandidates_sel_dropLast h cands cands sel hsel (base ++ [c]) hmem2
  apply hnot
  have hd : (base ++ [c]).dropLast = base := by simp
  rw [hd]
  exact hbase

/-- C2 (witness): on the concrete list [xa, xa1] with everything existing
and nothing mounted, the filter keeps xa and drops the single-digit alias
xa1. -/
theorem C2_amended_witness :
    ∃ sel, filterCandidates hC2 [['x', 'a'], ['x', 'a', '1']]
        [['x', 'a'], ['x', 'a', '1']] = Except.ok sel ∧
      ['x', 'a'] ∈ sel ∧ ['x', 'a'] ++ ['1'] ∉ sel :=
  C2_amended hC2 [['x', 'a'], ['x', 'a', '1']] ['x', 'a'] '1'
    (by decide) (by decide) (by decide) (by decide) (by decide)

/-- C3: when every existing candidate is already in the in-use set built
from the mount table, MountLocal returns the no-unused-local-storage error
and issues no format, mount or assembly call (its event trace is empty). -/
theorem C3_all_mounted (h : Host) (cands : List Dev) (mountBase : Dev)
    (hne : ∀ d ∈ cands, d ≠ [])
    (hu : ∀ d ∈ cands, h.devExists d = true → inUseB h.mounts d = true) :
    MountLocal h cands mountBase = ⟨[], some MLErr.noUnusedStorage, []⟩ := by
  have hf := filterCandidates_all_in_use h cands cands hne hu
  simp only [MountLocal, hf]

/-- C3 (witness): the single candidate xa is mounted, so aggregation fails
with the no-unused-storage error and an empty event trace. -/
theorem C3_all_mounted_witness :
    MountLocal hC3 [['x', 'a']] ['/', 'm'] = ⟨[], some MLErr.noUnusedStorage, []⟩ :=
  C3_all_mounted hC3 [['x', 'a']] ['/', 'm'] (by decide) (by decide)

/-- The /dev/mdN scan returns the first non-existing path in its range. -/
theorem firstFreeMdAux_spec (ex : Dev → Bool) :
    ∀ fuel i r, firstFreeMdAux ex i fuel = some r →
      ∃ k, k < fuel ∧ r = mdPath (i + k) ∧ ex (mdPath (i + k)) = false ∧
        ∀ j, j < k → ex (mdPath (i + j)) = true := by
  intro fuel
  induction fuel with
  | zero => intro i r hr; exact Option.noConfusion hr
  | succ fuel ih =>
    intro i r hr
    simp only [firstFreeMdAux] at hr
    by_cases hex : ex (mdPath i) = true
    · rw [if_pos hex] at hr
      obtain ⟨k, hk, hrp, hfree, hprev⟩ := ih (i + 1) r hr
      refine ⟨k + 1, by omega, ?_, ?_, ?_⟩
      · rw [hrp]; congr 1; omega
      · have harith : i + 1 + k = i + (k + 1) := by omega
        rw [← harith]; exact hfree
      · intro j hj
        cases j with
        | zero => simpa using hex
        | succ j =>
          have harith : i + (j + 1) = i + 1 + j := by omega
          rw [harith]; exact hprev j (by omega)
    · rw [if_neg hex] at hr
      simp only [Option.some.injEq] at hr
      refine ⟨0, by omega, by simp [← hr], by simpa using hex, ?_⟩
      intro j hj
      exact absurd hj (Nat.not_lt_zero j)

/-- The first free /dev/mdN characterization over the 0..19 range. -/
theorem firstFreeMd_spec (ex : Dev → Bool) (r : Dev)
    (h : firstFreeMd ex = some r) :
    ∃ n, n < 20 ∧ r = mdPath n ∧ ex (mdPath n) = false ∧
      ∀ m, m < n → ex (mdPath m) = true := by
  obtain ⟨k, hk, hr, hf, hp⟩ := firstFreeMdAux_spec ex 20 0 r h
  exact ⟨k, hk, by simpa using hr, by simpa using hf,
    fun m hm => by simpa using hp m hm⟩

/-- The per-device loop succeeds whenever each device formats cleanly or
reports already-mounted (which it skips), directories can be created, and
each mount succeeds. -/
theorem mountEach_ok (h : Host) (mountBase : Dev)
    (hdir : ∀ p, h.dirExists p = true) :
    ∀ devs i,
      (∀ d ∈ devs, h.mkfsOut d = MkfsOut.ok ∨ h.mkfsOut d = MkfsOut.mountedErr) →
      (∀ d ∈ devs, h.mountOk d = true) →
      (mountEach h mountBase devs i).fst = Except.ok () := by
  intro devs
  induction devs with
  | nil => intro i _ _; rfl
  | cons dev rest ih =>
    intro i hmk hmo
    have ih1 := ih (i + 1) (fun d hd => hmk d (List.mem_cons_of_mem _ hd))
      (fun d hd => hmo d (List.mem_cons_of_mem _ hd))
    rcases hrec : mountEach h mountBase rest (i + 1) with ⟨r3, e3⟩
    rw [hrec] at ih1
    rcases hmk dev (List.mem_cons_self _ _) with hok | hmt
    · have hm1 : mkfs h ext4 dev = (Except.ok (), [Ev.format ext4 dev]) := by
        simp [mkfs, hok]
      have hm2 : makeAndMount h dev (indexedBase mountBase i) =
          (Except.ok (), [Ev.mount dev (indexedBase mountBase i)]) := by
        simp [makeAndMount, makeDir, hdir, hmo dev (List.mem_cons_self _ _)]
      simp only [mountEach, hm1, hm2, hrec]
      exact ih1
    · have hm1 : mkfs h ext4 dev =
          (Except.error MLErr.alreadyMounted, [Ev.format ext4 dev]) := by
        simp [mkfs, hmt]
      simp only [mountEach, hm1, hrec]
      exact ih1

/-- C4: when filtering leaves exactly three usable devices and the striping
tool is available and succeeds, MountLocal assembles exactly one array from
all three at the first free /dev/mdN path (N scanned over 0..19), formats
exactly once (the array device), and mounts exactly once, at the base mount
point. -/
theorem C4_raid (h : Host) (cands : List Dev) (mountBase : Dev) (a b c r : Dev)
    (hf : filterCandidates h cands cands = Except.ok [a, b, c])
    (hmd : h.mdadmAvailable = true) (hok : h.mdadmOk = true)
    (hfree : firstFreeMd h.devExists = some r)
    (hmk : h.mkfsOut r = MkfsOut.ok)
    (hdir : h.dirExists mountBase = true)
    (hmo : h.mountOk r = true) :
    MountLocal h cands mountBase =
      ⟨[r], none,
       [Ev.mdadmCreate r [a, b, c], Ev.format ext4 r, Ev.mount r mountBase]⟩ ∧
    (MountLocal h cands mountBase).events.countP isMdadmEv = 1 ∧
    (MountLocal h cands mountBase).events.countP isFormatEv = 1 ∧
    (MountLocal h cands mountBase).events.countP isMountEv = 1 ∧
    ∃ n, n < 20 ∧ r = mdPath n ∧ h.devExists (mdPath n) = false ∧
      ∀ m, m < n → h.devExists (mdPath m) = true := by
  have hm1 : mkfs h ext4 r = (Except.ok (), [Ev.format ext4 r]) := by
    simp [mkfs, hmk]
  have hm2 : makeAndMount h r mountBase = (Except.ok (), [Ev.mount r mountBase]) := by
    simp [makeAndMount, makeDir, hdir, hmo]
  have heq : MountLocal h cands mountBase =
      ⟨[r], none,
       [Ev.mdadmCreate r [a, b, c], Ev.format ext4 r, Ev.mount r mountBase]⟩ := by
    simp only [MountLocal, hf]
    rw [if_neg (by simp [hmd])]
    simp only [hfree]
    rw [if_neg (by simp [hok])]
    simp only [hm1, hm2]
    rfl
  refine ⟨heq, ?_, ?_, ?_, firstFreeMd_spec h.devExists r hfree⟩
  all_goals
    rw [heq]
    simp [List.countP, List.countP.go, isMdadmEv, isFormatEv, isMountEv]

/-- C4 (witness): three usable devices xa, xb, xc with /dev/md0 free: one
array at /dev/md0, one format, one mount at the base. -/
theorem C4_raid_witness :
    MountLocal hC4 [['x', 'a'], ['x', 'b'], ['x', 'c']] ['/', 'm'] =
      ⟨[mdPath 0], none,
       [Ev.mdadmCreate (mdPath 0) [['x', 'a'], ['x', 'b'], ['x', 'c']],
        Ev.format ext4 (mdPath 0), Ev.mount (mdPath 0) ['/', 'm']]⟩ ∧
    (MountLocal hC4 [['x', 'a'], ['x', 'b'], ['x', 'c']] ['/', 'm']).events.countP
      isMdadmEv = 1 ∧
    (MountLocal hC4 [['x', 'a'], ['x', 'b'], ['x', 'c']] ['/', 'm']).events.countP
      isFormatEv = 1 ∧
    (MountLocal hC4 [['x', 'a'], ['x', 'b'], ['x', 'c']] ['/', 'm']).events.countP
      isMountEv = 1 ∧
    ∃ n, n < 20 ∧ mdPath 0 = mdPath n ∧ hC4.devExists (mdPath n) = false ∧
      ∀ m, m < n → hC4.devExists (mdPath m) = true :=
  C4_raid hC4 [['x', 'a'], ['x', 'b'], ['x', 'c']] ['/', 'm']
    ['x', 'a'] ['x', 'b'] ['x', 'c'] (mdPath 0)
    rfl rfl rfl rfl rfl rfl rfl

/-- C5: MountLocal formats with the hard-coded ext4 filesystem type.  The
FSType argument requested by the caller is never passed to MountLocal (the
function has no such parameter in the source), so a caller requesting any
other type still gets ext4: here the single usable device xa is formatted
as ext4 and mounted at the base mount point. -/
theorem C5_fstype_ignored :
    MountLocal hC5 [['x', 'a']] ['/', 'm'] =
      ⟨[['x', 'a']], none,
       [Ev.format ext4 ['x', 'a'], Ev.mount ['x', 'a'] ['/', 'm']]⟩ ∧
    ext4 = ['e', 'x', 't', '4'] :=
  ⟨rfl, rfl⟩

/-- C6 (counterexample): on the striped-array path an already-mounted format
failure is NOT absorbed: with two usable devices and mdadm available, when
formatting the assembled array reports already-mounted, MountLocal returns
the MountedError to its caller (the whole operation fails), contradicting
the claim that the failure is benign on either path. -/
theorem C6_counterexample :
    MountLocal hC6 [['x', 'a'], ['x', 'b']] ['/', 'm'] =
      ⟨[mdPath 0], some MLErr.alreadyMounted,
       [Ev.mdadmCreate (mdPath 0) [['x', 'a'], ['x', 'b']],
        Ev.format ext4 (mdPath 0)]⟩ :=
  rfl

/-- C6 (amended): the already-mounted format error is absorbed only on the
per-device path (striping tool unavailable, or a single usable device):
there, when every usable device either formats cleanly or reports
already-mounted and all other calls succeed, MountLocal succeeds and
returns the full device list.  On the striped-array path the error is
returned together with the array path (see the counterexample). -/
theorem C6_amended (h : Host) (cands : List Dev) (mountBase : Dev) (devs : List Dev)
    (hf : filterCandidates h cands cands = Except.ok devs)
    (hnd : devs ≠ [])
    (hpath : ¬ h.mdadmAvailable = true ∨ devs.length = 1)
    (hmk : ∀ d ∈ devs, h.mkfsOut d = MkfsOut.ok ∨ h.mkfsOut d = MkfsOut.mountedErr)
    (hdir : ∀ p, h.dirExists p = true)
    (hmo : ∀ d ∈ devs, h.mountOk d = true) :
    (MountLocal h cands mountBase).err = none ∧
    (MountLocal h cands mountBase).devices = devs := by
  have hme := mountEach_ok h mountBase hdir devs 0 hmk hmo
  rcases hrec : mountEach h mountBase devs 0 with ⟨r, evs⟩
  rw [hrec] at hme
  have hr : r = Except.ok () := hme
  subst hr
  cases devs with
  | nil => exact absurd rfl hnd
  | cons d0 drest =>
    simp only [MountLocal, hf]
    rw [if_pos hpath]
    simp [hrec]

/-- C6 (witness): without the striping tool, re-running aggregation where
xa already reports already-mounted succeeds and still returns both
devices. -/
theorem C6_amended_witness :
    (MountLocal hC6w [['x', 'a'], ['x', 'b']] ['/', 'm']).err = none ∧
    (MountLocal hC6w [['x', 'a'], ['x', 'b']] ['/', 'm']).devices =
      [['x', 'a'], ['x', 'b']] :=
  C6_amended hC6w [['x', 'a'], ['x', 'b']] ['/', 'm'] [['x', 'a'], ['x', 'b']]
    rfl (by decide) (Or.inl (by decide)) (by decide) (fun _ => rfl)
    (by decide)

/-- The region probe over a list in which every describe fails returns no
region and a trace of exactly the describe calls. -/
theorem probeRegions_all_fail (env : DdvEnv) (vid : String) :
    ∀ rs, (∀ r ∈ rs, env.describeOk r vid = false) →
      probeRegions env vid rs = (none, rs.map fun r => DdvEv.describe r vid) := by
  intro rs
  induction rs with
  | nil => intro _; rfl
  | cons r rest ih =>
    intro hall
    have h1 : env.describeOk r vid = false := hall r (List.mem_cons_self _ _)
    have ihr := ih fun x hx => hall x (List.mem_cons_of_mem _ hx)
    simp only [probeRegions]
    rw [if_neg (by simp [h1]), ihr]
    rfl

/-- C7: when the describe call fails in every probed region, DetachAndDelete
returns the not-found error, its trace is exactly the region-probe describe
calls, and it issues no detach call and no delete call. -/
theorem C7_not_found (env : DdvEnv) (vid : String)
    (hfail : ∀ r ∈ ddvRegions, env.describeOk r vid = false) :
    DetachAndDelete env vid =
      (some (DdvErr.notFound vid), ddvRegions.map fun r => DdvEv.describe r vid) ∧
    (DetachAndDelete env vid).snd.countP isDetachEv = 0 ∧
    (DetachAndDelete env vid).snd.countP isDeleteEv = 0 := by
  have hp := probeRegions_all_fail env vid ddvRegions hfail
  have heq : DetachAndDelete env vid =
      (some (DdvErr.notFound vid), ddvRegions.map fun r => DdvEv.describe r vid) := by
    simp only [DetachAndDelete, hp]
  refine ⟨heq, ?_, ?_⟩
  · rw [heq]
    rw [List.countP_eq_zero]
    intro a ha
    obtain ⟨r, _, hr⟩ := List.mem_map.mp ha
    rw [← hr]
    simp [isDetachEv]
  · rw [heq]
    rw [List.countP_eq_zero]
    intro a ha
    obtain ⟨r, _, hr⟩ := List.mem_map.mp ha
    rw [← hr]
    simp [isDeleteEv]

/-- C7 (witness): a volume id that no region reports: the not-found error,
fifteen describe calls, no detach, no delete. -/
theorem C7_not_found_witness :
    DetachAndDelete envC7 "vol-x" =
      (some (DdvErr.notFound "vol-x"),
        ddvRegions.map fun r => DdvEv.describe r "vol-x") ∧
    (DetachAndDelete envC7 "vol-x").snd.countP isDetachEv = 0 ∧
    (DetachAndDelete envC7 "vol-x").snd.countP isDeleteEv = 0 :=
  C7_not_found envC7 "vol-x" (by decide)

/-- The region probe consults the environment only at the probed volume id:
environments agreeing there probe identically. -/
theorem probeRegions_congr (e1 e2 : DdvEnv) (b : String)
    (h1 : ∀ r, e1.describeOk r b = e2.describeOk r b) :
    ∀ rs, probeRegions e1 b rs = probeRegions e2 b rs := by
  intro rs
  induction rs with
  | nil => rfl
  | cons r rest ih => simp only [probeRegions, h1 r, ih]

/-- C9: teardown outcomes are per-id independent.  A volume id's
DetachAndDelete outcome depends only on the provider's answers about that
id: two environments that agree on one id (but may differ arbitrarily on
every other id, e.g. one in which a sibling id fails everywhere) give that
id the same outcome; and ddv.Main processes every id passed to it, one
independent task per id. -/
theorem C9_independent (e1 e2 : DdvEnv) (vids : List String) (b : String)
    (h1 : ∀ r, e1.describeOk r b = e2.describeOk r b)
    (h2 : e1.detachCall b = e2.detachCall b)
    (h3 : ∀ i, e1.statusSeq b i = e2.statusSeq b i)
    (h4 : e1.deleteOk b = e2.deleteOk b) :
    DetachAndDelete e1 b = DetachAndDelete e2 b ∧
    (ddvMain e1 vids).map Prod.fst = vids := by
  have hss : e1.statusSeq b = e2.statusSeq b := funext h3
  have hdel : ∀ evs, deleteStep e1 b evs = deleteStep e2 b evs := by
    intro evs
    simp only [deleteStep, h4]
  have hpr := probeRegions_congr e1 e2 b h1 ddvRegions
  constructor
  · simp only [DetachAndDelete, hpr, h2, hss, hdel]
  · simp only [ddvMain, List.map_map]
    exact List.map_id vids

/-- C9 (witness): vol-a succeeds in envC9a and fails everywhere in envC9b,
yet vol-b's teardown outcome is identical in both environments, and both ids
are processed. -/
theorem C9_independent_witness :
    DetachAndDelete envC9a "vol-b" = DetachAndDelete envC9b "vol-b" ∧
    (ddvMain envC9a ["vol-a", "vol-b"]).map Prod.fst = ["vol-a", "vol-b"] :=
  C9_independent envC9a envC9b ["vol-a", "vol-b"] "vol-b"
    (fun _ => rfl) rfl (fun _ => rfl) rfl

/-- C1 (counterexample): the io1 request of size 2 with iops 101 passes the
range check (101 lies in [100, 20000]) but exceeds 50*size = 100, so the
code resets iops to 45*size = 90 - a value below 100, outside the claimed
[100, 20000] clamp - and sends 90 to the control plane in the CreateVolume
call. -/
theorem C1_counterexample :
    clampIops "io1" 2 101 = Except.ok 90 ∧
    CreateAttach envC1 cliC1 =
      ⟨[['/', 'd', 'e', 'v', '/', 's', 'd', 'b']], none, ["vol-1"],
       [Ec2Ev.createVolume 0 2 "io1" 90, Ec2Ev.describeVolumes "vol-1",
        Ec2Ev.attachVolume "vol-1" ['/', 'd', 'e', 'v', '/', 's', 'd', 'b'],
        Ec2Ev.describeVolumes "vol-1"]⟩ ∧
    (90 : Int) < 100 :=
  ⟨rfl, rfl, by decide⟩

/-- C1 (amended): for an io1 request with a nonnegative size below 2^50, an
accepted iops value is at most 20000 and at most 50*size, and an iops value
outside [100, 20000] is rejected with no control-plane call issued (the
event trace of CreateAttach is empty).  The accepted value is NOT always at
least 100: when an in-range iops exceeds 50*size the code resets it to
45*size, which for size at most 2 falls below 100 (see the
counterexample). -/
theorem C1_amended (env : Ec2Env) (cli : Args)
    (hvt : cli.VolumeType = "io1") (h0 : 0 ≤ cli.Size) (h1 : cli.Size < 2 ^ 50)
    (hiid : env.iidOk = true) (hsess : env.sessionOk = true) :
    (∀ v : Int, clampIops cli.VolumeType cli.Size cli.Iops = Except.ok v →
      v ≤ 20000 ∧ v ≤ 50 * cli.Size) ∧
    (clampIops cli.VolumeType cli.Size cli.Iops = Except.error () →
      CreateAttach env cli = ⟨[], some CAErr.iopsRange, [], []⟩) := by
  have h45 : i64 (45 * cli.Size) = 45 * cli.Size :=
    i64_eq_of_bounds _ (by omega) (by omega)
  have h50 : i64 (50 * cli.Size) = 50 * cli.Size :=
    i64_eq_of_bounds _ (by omega) (by omega)
  constructor
  · intro v hv
    simp only [clampIops] at hv
    rw [if_pos hvt] at hv
    simp only [h45, h50] at hv
    by_cases hz : cli.Iops = 0
    · rw [if_pos hz] at hv
      split_ifs at hv with ha hb hc <;> simp only [Except.ok.injEq] at hv <;> omega
    · rw [if_neg hz] at hv
      split_ifs at hv with ha hb hc <;> simp only [Except.ok.injEq] at hv <;> omega
  · intro he
    simp only [CreateAttach]
    rw [if_neg (not_not_intro hiid), if_neg (not_not_intro hsess)]
    simp only [he]

/-- C1 (witness): the amended statement instantiated at the concrete io1
request of size 2 with iops 101 in an all-success environment. -/
theorem C1_amended_witness :
    (∀ v : Int, clampIops cliC1.VolumeType cliC1.Size cliC1.Iops = Except.ok v →
      v ≤ 20000 ∧ v ≤ 50 * cliC1.Size) ∧
    (clampIops cliC1.VolumeType cliC1.Size cliC1.Iops = Except.error () →
      CreateAttach envC1 cliC1 = ⟨[], some CAErr.iopsRange, [], []⟩) :=
  C1_amended envC1 cliC1 rfl (by decide) (by decide) rfl rfl

/-- C8: when the provider-side attach succeeds (and the volume reaches
in-use) but the device node never appears within the 30 one-second polls,
CreateAttach does NOT return an error: the `return nil, err` after the
waitForDevice check returns the stale outer err variable, which is nil on
this path, so the caller sees success with an empty device list.  This
contradicts the claim (and the spec's intent) that the attach is declared
failed. -/
theorem C8_no_error_on_missing_device :
    CreateAttach envC8 cliC8 =
      ⟨[], none, ["vol-1"],
       [Ec2Ev.createVolume 0 200 "gp2" 0, Ec2Ev.describeVolumes "vol-1",
        Ec2Ev.attachVolume "vol-1" ['/', 'd', 'e', 'v', '/', 's', 'd', 'b'],
        Ec2Ev.describeVolumes "vol-1"]⟩ ∧
    (CreateAttach envC8 cliC8).err = none ∧
    (CreateAttach envC8 cliC8).devices = [] :=
  ⟨rfl, rfl, rfl⟩

end Batchit
